import Mathlib

/-!
Verification of a user-based collaborative-filtering recommender
(recommenderSystem.py): interaction-matrix pivot, Pearson / cosine
similarity matrices, top-k neighbour selection, mean-centred rating
prediction and top-n recommendation, shallowly embedded over exact
arithmetic (ratings and similarities as rationals, similarity-matrix
entries as reals since the correlation formulas take square roots;
the NaN a float computation would produce is modelled as Option.none).
-/

namespace RecSys

/-- One row of the merged ratings dataframe: userId, movieId, rating, title. -/
structure Obs where
  userId : Nat
  movieId : Nat
  rating : ℚ
  title : String
deriving DecidableEq

/-- Mean of a pandas series: NaN on an empty series, modelled as none. -/
def meanOpt (l : List ℚ) : Option ℚ :=
  if l.isEmpty then none else some (l.sum / l.length)

/-- Mean with the rational division-by-zero convention (0 on the empty list).
The source only reads this value in contexts where the list is nonempty, or
where the junk value 0 coincides with the fillna(0) policy of the pivot. -/
def meanD0 (l : List ℚ) : ℚ := l.sum / l.length

/-- Sorted distinct userIds: the index of the pivot table. -/
def userIds (ratings : List Obs) : List Nat :=
  List.insertionSort (fun a b => a ≤ b) (ratings.map Obs.userId).dedup

/-- Sorted distinct movieIds: the columns of the pivot table. -/
def movieIds (ratings : List Obs) : List Nat :=
  List.insertionSort (fun a b => a ≤ b) (ratings.map Obs.movieId).dedup

/-- One cell of pivot_table(index=userId, columns=movieId, values=rating)
followed by fillna(0): the mean of the matching ratings (pivot_table
aggregates duplicates with mean), and 0 when there is no observation. -/
def cell (ratings : List Obs) (u m : Nat) : ℚ :=
  meanD0 ((ratings.filter (fun o => o.userId = u ∧ o.movieId = m)).map Obs.rating)

/-- The zero-filled rating vector of user u over the movie columns. -/
def rowVec (ratings : List Obs) (u : Nat) : List ℚ :=
  (movieIds ratings).map (cell ratings u)

/-- Sample covariance of two equal-length vectors as computed by np.cov
inside np.corrcoef (ddof = 1).  With fewer than two columns the float
computation divides by zero; here rational division by zero yields 0,
which then lands in the zero-variance (undefined) branch below, matching
the NaN numpy produces. -/
def covq (x y : List ℚ) : ℚ :=
  ((x.zip y).map (fun p => (p.1 - meanD0 x) * (p.2 - meanD0 y))).sum / ((x.length : ℚ) - 1)

/-- np.corrcoef clips the result into the interval from -1 to 1. -/
noncomputable def clip (t : ℝ) : ℝ := max (-1) (min 1 t)

/-- One off-diagonal entry of np.corrcoef of the stacked rating rows:
cov(x,y) / sqrt(var x * var y).  When either variance is 0 the float
division yields NaN (cov is then 0, giving 0/0); modelled as none. -/
noncomputable def pearsonEntry (x y : List ℚ) : Option ℝ :=
  if covq x x = 0 ∨ covq y y = 0 then none
  else some (clip ((covq x y : ℝ) / Real.sqrt ((covq x x : ℝ) * (covq y y : ℝ))))

/-- pearson_similarity_matrix: corrcoef of the zero-filled pivot rows with
the diagonal then forced to 0 by np.fill_diagonal. -/
noncomputable def pearson_similarity_matrix (ratings : List Obs) : Nat → Nat → Option ℝ :=
  fun i j => if i = j then some 0 else pearsonEntry (rowVec ratings i) (rowVec ratings j)

/-- Dot product of two rating vectors. -/
def dotq (x y : List ℚ) : ℚ := ((x.zip y).map (fun p => p.1 * p.2)).sum

/-- One entry of sklearn cosine_similarity: each row is L2-normalised
(rows of norm 0 are left unchanged, so a zero row gives similarity 0,
not NaN) and the normalised rows are multiplied. -/
noncomputable def cosineEntry (x y : List ℚ) : ℝ :=
  if dotq x x = 0 ∨ dotq y y = 0 then 0
  else (dotq x y : ℝ) / (Real.sqrt (dotq x x : ℝ) * Real.sqrt (dotq y y : ℝ))

/-- cosine_similarity_matrix: cosine similarity of the zero-filled pivot
rows with the diagonal then forced to 0 by np.fill_diagonal. -/
noncomputable def cosine_similarity_matrix (ratings : List Obs) : Nat → Nat → ℝ :=
  fun i j => if i = j then 0 else cosineEntry (rowVec ratings i) (rowVec ratings j)

/-- A similarity dataframe: its user index and its entries. -/
structure SimDF where
  users : List Nat
  sim : Nat → Nat → ℚ

/-- The column of the similarity dataframe selected by the target user:
for each index user u, the value sim(u, target). -/
def simRow (df : SimDF) (target : Nat) : List (Nat × ℚ) :=
  df.users.map (fun u => (u, df.sim u target))

/-- Descending order on the second (score) component. -/
def descBySnd {α : Type} : (α × ℚ) → (α × ℚ) → Prop := fun a b => b.2 ≤ a.2

instance {α : Type} : DecidableRel (@descBySnd α) :=
  fun a b => inferInstanceAs (Decidable (b.2 ≤ a.2))

instance {α : Type} : IsTotal (α × ℚ) descBySnd := ⟨fun a b => le_total b.2 a.2⟩

instance {α : Type} : IsTrans (α × ℚ) descBySnd := ⟨fun _ _ _ h1 h2 => le_trans h2 h1⟩

/-- sort_values(ascending=False) on a series of scores. -/
def sortDescSnd {α : Type} (l : List (α × ℚ)) : List (α × ℚ) :=
  List.insertionSort descBySnd l

/-- Python slice l[0:n]: the first n elements for nonnegative n, and all
but the last |n| elements for negative n. -/
def pySlice {α : Type} (n : Int) (l : List α) : List α :=
  if 0 ≤ n then l.take n.toNat else l.take (l.length - (-n).toNat)

/-- get_top_similar_users: sort the target column of the similarity
dataframe descending by score and slice the first n entries.  (The
head(10) and the prints are presentation only and return nothing.) -/
def get_top_similar_users (df : SimDF) (target : Nat) (n : Int) : List (Nat × ℚ) :=
  pySlice n (sortDescSnd (simRow df target))

/-- get_user_ratings: the rows of the ratings dataframe for one user. -/
def userRows (ratings : List Obs) (u : Nat) : List Obs :=
  ratings.filter (fun o => o.userId = u)

/-- dict(zip(movieIds, ratings)) lookup: for duplicate movieIds the last
pair wins, hence the last matching row. -/
def lookupLast (m : Nat) (l : List Obs) : Option ℚ :=
  ((l.filter (fun o => o.movieId = m)).map Obs.rating).getLast?

/-- drop_duplicates: keep the first occurrence of each pair, in order. -/
def dedupFirst : List (Nat × String) → List (Nat × String)
  | [] => []
  | p :: l => p :: dedupFirst (l.filter (fun q => q ≠ p))
termination_by l => l.length
decreasing_by simpa using Nat.lt_succ_of_le (List.length_filter_le _ _)

/-- The userIds of a neighbourhood (similar_users.index). -/
def neighborIds (su : List (Nat × ℚ)) : List Nat := su.map Prod.fst

/-- The movieIds already rated by the target user. -/
def targetMovieIds (ratings : List Obs) (target : Nat) : List Nat :=
  (userRows ratings target).map Obs.movieId

/-- unseen_movies: the distinct (movieId, title) pairs of rows whose user
is in the neighbourhood and whose movie the target has not rated. -/
def unseenMovies (ratings : List Obs) (su : List (Nat × ℚ)) (target : Nat) :
    List (Nat × String) :=
  dedupFirst (((ratings.filter (fun o => o.userId ∈ neighborIds su)).filter
    (fun o => o.movieId ∉ targetMovieIds ratings target)).map (fun o => (o.movieId, o.title)))

/-- Mean rating of one user (read by the prediction loop only for users
that rated the item at hand, hence on a nonempty list). -/
def userMeanD0 (ratings : List Obs) (u : Nat) : ℚ :=
  meanD0 ((userRows ratings u).map Obs.rating)

/-- The weighted-sum accumulation of the prediction loop over the
neighbourhood: neighbours that rated the movie contribute
similarity * (rating - their mean), the others leave the sum unchanged. -/
def weightedSumFor (ratings : List Obs) (su : List (Nat × ℚ)) (m : Nat) : ℚ :=
  su.foldl (fun acc p =>
    match lookupLast m (userRows ratings p.1) with
    | some r => acc + p.2 * (r - userMeanD0 ratings p.1)
    | none => acc) 0

/-- The similarity-sum accumulation of the prediction loop: neighbours
that rated the movie contribute their similarity. -/
def simSumFor (ratings : List Obs) (su : List (Nat × ℚ)) (m : Nat) : ℚ :=
  su.foldl (fun acc p =>
    match lookupLast m (userRows ratings p.1) with
    | some _ => acc + p.2
    | none => acc) 0

/-- target_user_mean_rating: NaN (none) when the target has no ratings. -/
def targetMean (ratings : List Obs) (target : Nat) : Option ℚ :=
  meanOpt ((userRows ratings target).map Obs.rating)

/-- The body of predict_ratings once the neighbourhood is fixed: for each
unseen movie with nonzero similarity sum, record
(title, targetMean + weightedSum / similaritySum); an undefined target
mean (NaN) propagates into the value.  The returned association list
models the Python dict: a key's value is read with pyDictGet below. -/
def predictWith (ratings : List Obs) (su : List (Nat × ℚ)) (target : Nat) :
    List (String × Option ℚ) :=
  (unseenMovies ratings su target).filterMap (fun c =>
    if simSumFor ratings su c.1 ≠ 0 then
      some (c.2, (targetMean ratings target).map
        (fun tm => tm + weightedSumFor ratings su c.1 / simSumFor ratings su c.1))
    else none)

/-- predict_ratings: the neighbourhood is get_top_similar_users with its
default n = 40. -/
def predict_ratings (ratings : List Obs) (df : SimDF) (target : Nat) :
    List (String × Option ℚ) :=
  predictWith ratings (get_top_similar_users df target 40) target

/-- Python dict read on the association list: the last assignment wins. -/
def pyDictGet (k : String) (l : List (String × Option ℚ)) : Option (Option ℚ) :=
  ((l.filter (fun p => p.1 = k)).map Prod.snd).getLast?

/-- recommend_movies: sort the prediction items descending by predicted
rating (Python sorted is stable) and slice the first n. -/
def recommend_movies (predictions : List (String × ℚ)) (n : Int) : List (String × ℚ) :=
  pySlice n (sortDescSnd predictions)

/-! ### General lemmas about the embedded operations -/

lemma covq_comm (x y : List ℚ) (h : x.length = y.length) : covq x y = covq y x := by
  unfold covq
  rw [h]
  congr 1
  rw [← List.zip_swap y x, List.map_map]
  refine congrArg List.sum (List.map_congr_left ?_)
  intro p _
  simp only [Function.comp_apply, Prod.swap]
  ring

lemma dotq_comm (x y : List ℚ) : dotq x y = dotq y x := by
  unfold dotq
  rw [← List.zip_swap y x, List.map_map]
  refine congrArg List.sum (List.map_congr_left ?_)
  intro p _
  simp only [Function.comp_apply, Prod.swap]
  ring

lemma pearsonEntry_comm (x y : List ℚ) (h : x.length = y.length) :
    pearsonEntry x y = pearsonEntry y x := by
  unfold pearsonEntry
  rw [covq_comm x y h]
  exact if_congr or_comm rfl (by rw [mul_comm])

lemma cosineEntry_comm (x y : List ℚ) : cosineEntry x y = cosineEntry y x := by
  unfold cosineEntry
  rw [dotq_comm x y]
  exact if_congr or_comm rfl (by rw [mul_comm])

lemma length_rowVec (ratings : List Obs) (u : Nat) :
    (rowVec ratings u).length = (movieIds ratings).length :=
  List.length_map _ _

/-! ### Claim theorems -/

/-- C2: for every rating input and either metric (Pearson or cosine), the
similarity matrix is symmetric and every diagonal entry is exactly 0 (for
Pearson the entries are Option-valued, an undefined correlation being
none; a pair of undefined entries is symmetric as well). -/
theorem similarity_matrix_symmetric_and_zero_diagonal (ratings : List Obs) (i j : Nat) :
    pearson_similarity_matrix ratings i j = pearson_similarity_matrix ratings j i ∧
    cosine_similarity_matrix ratings i j = cosine_similarity_matrix ratings j i ∧
    pearson_similarity_matrix ratings i i = some 0 ∧
    cosine_similarity_matrix ratings i i = 0 := by
  refine ⟨?_, ?_, ?_, ?_⟩
  · by_cases h : i = j
    · subst h; rfl
    · unfold pearson_similarity_matrix
      rw [if_neg h, if_neg (Ne.symm h)]
      exact pearsonEntry_comm _ _ (by simp [length_rowVec])
  · by_cases h : i = j
    · subst h; rfl
    · unfold cosine_similarity_matrix
      rw [if_neg h, if_neg (Ne.symm h)]
      exact cosineEntry_comm _ _
  · unfold pearson_similarity_matrix
    rw [if_pos rfl]
  · unfold cosine_similarity_matrix
    rw [if_pos rfl]

/-- A rating input whose first user gives the same rating everywhere: the
zero-filled vector of user 1 is the constant vector (3, 3), which has zero
variance, so its Pearson correlation with any row is undefined. -/
def cRatings6 : List Obs := [⟨1, 1, 3, "a"⟩, ⟨1, 2, 3, "b"⟩, ⟨2, 1, 1, "a"⟩, ⟨2, 2, 5, "b"⟩]

lemma cRatings6_row1 : rowVec cRatings6 1 = [3, 3] := by
  have hm : movieIds cRatings6 = [1, 2] := by
    norm_num [movieIds, cRatings6, List.dedup, List.pwFilter, List.insertionSort,
      List.orderedInsert]
  rw [rowVec, hm]
  norm_num [cell, meanD0, cRatings6, List.filter]

lemma cRatings6_var1 : covq (rowVec cRatings6 1) (rowVec cRatings6 1) = 0 := by
  rw [cRatings6_row1]
  norm_num [covq, meanD0, List.zip, List.zipWith]

/-- C6 counterexample: in the input cRatings6 user 1's zero-filled vector
has zero variance, and the Pearson matrix entry (1,2) is the undefined
value (NaN, modelled none), not the similarity 0 the claim promises. -/
theorem pearson_zero_variance_not_substituted :
    pearson_similarity_matrix cRatings6 1 2 = none ∧
    pearson_similarity_matrix cRatings6 1 2 ≠ some (0 : ℝ) := by
  have hnone : pearson_similarity_matrix cRatings6 1 2 = none := by
    unfold pearson_similarity_matrix pearsonEntry
    rw [if_neg (by norm_num), if_pos (Or.inl cRatings6_var1)]
  exact ⟨hnone, by rw [hnone]; simp⟩

/-- C6 amended: when the zero-filled vector of a user has zero variance,
every off-diagonal Pearson entry involving that user is the undefined
value NaN (modelled none): the code propagates NaN rather than
substituting similarity 0 (only the diagonal is forced to 0). -/
theorem pearson_zero_variance_entry_undefined (ratings : List Obs) (i j : Nat)
    (hij : i ≠ j) (hvar : covq (rowVec ratings i) (rowVec ratings i) = 0) :
    pearson_similarity_matrix ratings i j = none := by
  unfold pearson_similarity_matrix pearsonEntry
  rw [if_neg hij, if_pos (Or.inl hvar)]

/-- C6 witness: the amended theorem applied to the concrete input. -/
theorem pearson_zero_variance_entry_undefined_witness :
    pearson_similarity_matrix cRatings6 1 2 = none :=
  pearson_zero_variance_entry_undefined cRatings6 1 2 (by norm_num) cRatings6_var1

lemma length_sortDescSnd {α : Type} (l : List (α × ℚ)) :
    (sortDescSnd l).length = l.length :=
  (List.perm_insertionSort descBySnd l).length_eq

lemma pairwise_sortDescSnd {α : Type} (l : List (α × ℚ)) :
    (sortDescSnd l).Pairwise descBySnd :=
  List.sorted_insertionSort descBySnd l

/-- In a list sorted descending by score, if at least k entries have a
positive score then every entry of the first k has a positive score. -/
lemma sorted_take_pos {α : Type} :
    ∀ {l : List (α × ℚ)} {k : Nat}, l.Pairwise descBySnd →
      k ≤ l.countP (fun p => decide (0 < p.2)) → ∀ p ∈ l.take k, 0 < p.2 := by
  intro l
  induction l with
  | nil => intro k _ _ p hp; simp at hp
  | cons a t ih =>
    intro k hs hc p hp
    cases k with
    | zero => simp at hp
    | succ k' =>
      have hpa : 0 < a.2 := by
        by_contra hle
        push_neg at hle
        have hz : (a :: t).countP (fun p => decide (0 < p.2)) = 0 := by
          rw [List.countP_eq_zero]
          intro b hb
          simp only [decide_eq_true_eq, not_lt]
          rcases List.mem_cons.mp hb with hb | hb
          · exact hb ▸ hle
          · exact le_trans (List.rel_of_pairwise_cons hs hb) hle
        omega
      rw [List.take_succ_cons] at hp
      rcases List.mem_cons.mp hp with hp | hp
      · exact hp ▸ hpa
      · have hc' : k' ≤ t.countP (fun p => decide (0 < p.2)) := by
          rw [List.countP_cons] at hc
          split at hc <;> omega
        exact ih hs.of_cons hc' p hp

/-- C3 counterexample: a similarity matrix over two users (k + 1 users for
k = 1) in which the only other user has negative similarity; the target
user itself, carrying its forced diagonal score 0, sorts above it and is
returned as the whole neighbourhood of size 1. -/
def cDF3 : SimDF := ⟨[1, 2], fun u v => if u = v then 0 else -(1/2)⟩

theorem target_in_own_neighborhood_counterexample :
    1 + 1 ≤ cDF3.users.length ∧ 1 ∈ cDF3.users ∧
    1 ∈ (get_top_similar_users cDF3 1 1).map Prod.fst := by
  have h : get_top_similar_users cDF3 1 1 = [(1, 0)] := by
    norm_num [get_top_similar_users, pySlice, sortDescSnd, simRow, cDF3,
      List.insertionSort, List.orderedInsert, descBySnd]
  exact ⟨by norm_num [cDF3], by norm_num [cDF3], by rw [h]; simp⟩

/-- C3 amended: the neighbourhood scores are always non-increasing, but
the target user (whose own entry carries the forced diagonal score 0) is
only guaranteed absent when at least k users score strictly above 0; with
fewer strictly positive scores the target's zero entry can be returned,
as the counterexample shows. -/
theorem get_top_sorted_and_positive_scores_exclude_target (df : SimDF) (target : Nat)
    (k : Int) :
    (get_top_similar_users df target k).Pairwise descBySnd ∧
    (0 ≤ k → df.sim target target = 0 →
      k.toNat ≤ (simRow df target).countP (fun p => decide (0 < p.2)) →
      target ∉ (get_top_similar_users df target k).map Prod.fst) := by
  constructor
  · unfold get_top_similar_users pySlice
    split
    · exact List.Pairwise.sublist (List.take_sublist _ _) (pairwise_sortDescSnd _)
    · exact List.Pairwise.sublist (List.take_sublist _ _) (pairwise_sortDescSnd _)
  · intro hk hdiag hcount hmem
    rcases List.mem_map.mp hmem with ⟨p, hp, hfst⟩
    unfold get_top_similar_users pySlice at hp
    rw [if_pos hk] at hp
    have hcount' : k.toNat ≤ (sortDescSnd (simRow df target)).countP
        (fun p => decide (0 < p.2)) := by
      unfold sortDescSnd
      rw [(List.perm_insertionSort descBySnd _).countP_eq]
      exact hcount
    have hpos := sorted_take_pos (pairwise_sortDescSnd _) hcount' p hp
    have hmemRow : p ∈ simRow df target :=
      (List.perm_insertionSort descBySnd _).mem_iff.mp (List.mem_of_mem_take hp)
    rcases List.mem_map.mp hmemRow with ⟨u, _, hpu⟩
    rw [← hpu] at hfst hpos
    simp only at hfst hpos
    rw [hfst, hdiag] at hpos
    exact lt_irrefl 0 hpos

/-- C3 witness: two users with the other user's similarity strictly
positive; the target is excluded from the size-1 neighbourhood and the
scores are non-increasing. -/
def cDF3w : SimDF := ⟨[1, 2], fun u v => if u = v then 0 else 1/2⟩

theorem get_top_sorted_excludes_target_witness :
    (get_top_similar_users cDF3w 1 1).Pairwise descBySnd ∧
    1 ∉ (get_top_similar_users cDF3w 1 1).map Prod.fst := by
  have h := get_top_sorted_and_positive_scores_exclude_target cDF3w 1 1
  refine ⟨h.1, h.2 (by norm_num) (by norm_num [cDF3w]) ?_⟩
  norm_num [simRow, cDF3w, List.countP_cons]

/-- C7 counterexample: with k = -1 over two users the Python slice
similar_users[0:-1] drops only the last entry, so the result is neither
empty nor of length at most k. -/
def cDF7 : SimDF := ⟨[1, 2], fun u v => if u = v then 0 else 1/2⟩

theorem get_top_negative_k_not_empty :
    get_top_similar_users cDF7 1 (-1) = [(2, 1/2)] ∧
    get_top_similar_users cDF7 1 (-1) ≠ [] ∧
    ¬ ((get_top_similar_users cDF7 1 (-1)).length : Int) ≤ -1 := by
  have h : get_top_similar_users cDF7 1 (-1) = [(2, 1/2)] := by
    norm_num [get_top_similar_users, pySlice, sortDescSnd, simRow, cDF7,
      List.insertionSort, List.orderedInsert, descBySnd]
  refine ⟨h, by rw [h]; simp, by rw [h]; norm_num⟩

/-- C7 amended: the selection returns min(k, numUsers) entries for k at
least 0 — in particular at most k, and exactly the empty neighbourhood
for k = 0 — while for negative k the Python slice [0:k] instead drops
the last |k| entries of the sorted sequence. -/
theorem get_top_length_bounds (df : SimDF) (target : Nat) (k : Int) :
    ((get_top_similar_users df target k).length =
      if 0 ≤ k then min k.toNat df.users.length
      else df.users.length - (-k).toNat) ∧
    get_top_similar_users df target 0 = [] := by
  have hlen : (sortDescSnd (simRow df target)).length = df.users.length := by
    rw [length_sortDescSnd]
    simp [simRow]
  constructor
  · unfold get_top_similar_users pySlice
    split
    · rw [List.length_take, hlen]
    · rw [List.length_take, hlen]
      exact Nat.min_eq_left (Nat.sub_le _ _)
  · unfold get_top_similar_users pySlice
    rw [if_pos le_rfl]
    simp

/-- C9: for n at least 0 the recommendation is the prediction items
sorted descending by predicted rating, truncated to min(n, available):
at most n pairs, non-increasing ratings, and when fewer than n
predictions exist all of them are returned (as a permutation of the
input, hence without error or loss). -/
theorem recommend_movies_returns_topn (predictions : List (String × ℚ)) (n : Int)
    (hn : 0 ≤ n) :
    (recommend_movies predictions n).length = min n.toNat predictions.length ∧
    (recommend_movies predictions n).Pairwise descBySnd ∧
    (predictions.length ≤ n.toNat → (recommend_movies predictions n).Perm predictions) := by
  unfold recommend_movies pySlice
  rw [if_pos hn]
  refine ⟨?_, ?_, ?_⟩
  · rw [List.length_take, length_sortDescSnd]
  · exact List.Pairwise.sublist (List.take_sublist _ _) (pairwise_sortDescSnd _)
  · intro hle
    rw [List.take_of_length_le (by rw [length_sortDescSnd]; exact hle)]
    exact List.perm_insertionSort descBySnd _

/-- C9 witness: n = 10 with only 3 predictions returns exactly those 3,
sorted descending. -/
def cPreds9 : List (String × ℚ) := [("a", 1), ("b", 3), ("c", 2)]

theorem recommend_movies_returns_topn_witness :
    (recommend_movies cPreds9 10).length = min (Int.toNat 10) cPreds9.length ∧
    (recommend_movies cPreds9 10).Pairwise descBySnd ∧
    (recommend_movies cPreds9 10).Perm cPreds9 := by
  have h := recommend_movies_returns_topn cPreds9 10 (by norm_num)
  exact ⟨h.1, h.2.1, h.2.2 (by norm_num [cPreds9])⟩

lemma dedupFirst_subset : ∀ (l : List (Nat × String)) (p : Nat × String),
    p ∈ dedupFirst l → p ∈ l := by
  intro l
  induction l using dedupFirst.induct with
  | case1 => intro p hp; simp [dedupFirst] at hp
  | case2 a t ih =>
    intro p hp
    rw [dedupFirst] at hp
    rcases List.mem_cons.mp hp with hp | hp
    · exact hp ▸ List.mem_cons_self a t
    · exact List.mem_cons_of_mem a (List.mem_of_mem_filter (ih p hp))

lemma targetMean_eq_none {ratings : List Obs} {target : Nat}
    (h : userRows ratings target = []) : targetMean ratings target = none := by
  unfold targetMean meanOpt
  rw [h]
  simp

lemma targetMean_eq_some {ratings : List Obs} {target : Nat}
    (h : userRows ratings target ≠ []) :
    targetMean ratings target = some (meanD0 ((userRows ratings target).map Obs.rating)) := by
  unfold targetMean meanOpt meanD0
  rw [if_neg (by simpa using h)]

/-- C5 counterexample: for a target user with zero ratings the prediction
does not fail; it returns a nonempty PredictionSet whose value is the NaN
produced by the undefined target mean (modelled none). -/
def cRatings5 : List Obs := [⟨2, 1, 4, "m1"⟩]

def cDF5 : SimDF := ⟨[1, 2], fun u v => if u = v then 0 else 1/2⟩

theorem predict_without_target_ratings_returns :
    userRows cRatings5 1 = [] ∧
    predict_ratings cRatings5 cDF5 1 = [("m1", none)] := by
  constructor
  · norm_num [userRows, cRatings5, List.filter]
  · have hsu : get_top_similar_users cDF5 1 40 = [(2, 1/2), (1, 0)] := by
      norm_num [get_top_similar_users, pySlice, sortDescSnd, simRow, cDF5,
        List.insertionSort, List.orderedInsert, descBySnd]
    rw [predict_ratings, hsu]
    have hun : unseenMovies cRatings5 [(2, 1/2), (1, 0)] 1 = [(1, "m1")] := by
      norm_num [unseenMovies, neighborIds, targetMovieIds, userRows, cRatings5,
        dedupFirst, List.filter]
    rw [predictWith, hun]
    have hS : simSumFor cRatings5 [(2, 1/2), (1, 0)] 1 = 1/2 := by
      norm_num [simSumFor, lookupLast, userRows, cRatings5, List.filter]
    have htm : targetMean cRatings5 1 = none := by
      norm_num [targetMean, meanOpt, userRows, cRatings5, List.filter]
    norm_num [List.filterMap_cons, hS, htm]

/-- C5 amended: for a target user with zero ratings predict_ratings does
not fail with an error (the source raises nothing); the undefined mean of
the empty rating series (NaN, modelled none) propagates, so every value
of the returned PredictionSet is the undefined rating. -/
theorem predict_no_target_ratings_all_values_nan (ratings : List Obs) (df : SimDF)
    (target : Nat) (h : userRows ratings target = []) :
    (predict_ratings ratings df target).map Prod.snd =
      List.replicate (predict_ratings ratings df target).length none := by
  refine List.eq_replicate_iff.mpr ⟨by simp, ?_⟩
  intro b hb
  rcases List.mem_map.mp hb with ⟨p, hp, rfl⟩
  unfold predict_ratings predictWith at hp
  rcases List.mem_filterMap.mp hp with ⟨c, _, hfc⟩
  by_cases hS : simSumFor ratings (get_top_similar_users df target 40) c.1 ≠ 0
  · rw [if_pos hS, targetMean_eq_none h] at hfc
    simp only [Option.map_none'] at hfc
    rw [← Option.some.inj hfc]
  · rw [if_neg hS] at hfc
    cases hfc

/-- C5 witness: the amended theorem at the concrete input of the
counterexample. -/
theorem predict_no_target_ratings_all_values_nan_witness :
    (predict_ratings cRatings5 cDF5 1).map Prod.snd =
      List.replicate (predict_ratings cRatings5 cDF5 1).length none :=
  predict_no_target_ratings_all_values_nan cRatings5 cDF5 1
    (by norm_num [userRows, cRatings5, List.filter])

/-- C4 counterexample input: the target (user 1) rated movieId 1 titled
Same; the neighbour rated the different movieId 2 carrying the same
title.  Exclusion of candidates is by movieId, but the keys of the
PredictionSet are titles, so the title of a movie the target has already
rated reappears as a key. -/
def cRatings4 : List Obs := [⟨1, 1, 5, "Same"⟩, ⟨2, 2, 3, "Same"⟩]

def cDF4 : SimDF := ⟨[1, 2], fun u v => if u = v then 0 else 1/2⟩

theorem target_title_as_key_counterexample :
    "Same" ∈ (predict_ratings cRatings4 cDF4 1).map Prod.fst ∧
    "Same" ∈ (userRows cRatings4 1).map Obs.title := by
  have hsu : get_top_similar_users cDF4 1 40 = [(2, 1/2), (1, 0)] := by
    norm_num [get_top_similar_users, pySlice, sortDescSnd, simRow, cDF4,
      List.insertionSort, List.orderedInsert, descBySnd]
  have hp : predict_ratings cRatings4 cDF4 1 = [("Same", some 5)] := by
    rw [predict_ratings, hsu]
    have hun : unseenMovies cRatings4 [(2, 1/2), (1, 0)] 1 = [(2, "Same")] := by
      norm_num [unseenMovies, neighborIds, targetMovieIds, userRows, cRatings4,
        dedupFirst, List.filter]
    rw [predictWith, hun]
    have hS : simSumFor cRatings4 [(2, 1/2), (1, 0)] 2 = 1/2 := by
      norm_num [simSumFor, lookupLast, userRows, cRatings4, List.filter]
    have hW : weightedSumFor cRatings4 [(2, 1/2), (1, 0)] 2 = 0 := by
      norm_num [weightedSumFor, lookupLast, userRows, userMeanD0, meanD0, cRatings4,
        List.filter]
    have htm : targetMean cRatings4 1 = some 5 := by
      norm_num [targetMean, meanOpt, userRows, cRatings4, List.filter, meanD0]
    norm_num [List.filterMap_cons, hS, hW, htm]
  exact ⟨by rw [hp]; simp, by norm_num [userRows, cRatings4, List.filter]⟩

/-- C4 amended: every key of the PredictionSet is the title of an
observation made by a neighbourhood user on a movieId the target user has
not rated, so no movieId rated by the target produces a key; but since
keys are titles while exclusion is by movieId, a title the target has
already rated can still appear as a key when a different movieId carries
the same title, as the counterexample shows. -/
theorem predict_keys_are_neighbor_unseen (ratings : List Obs) (df : SimDF)
    (target : Nat) (t : String)
    (ht : t ∈ (predict_ratings ratings df target).map Prod.fst) :
    ∃ o : Obs, o ∈ ratings ∧
      o.userId ∈ neighborIds (get_top_similar_users df target 40) ∧
      o.title = t ∧ o.movieId ∉ targetMovieIds ratings target := by
  rcases List.mem_map.mp ht with ⟨p, hp, hpt⟩
  unfold predict_ratings predictWith at hp
  rcases List.mem_filterMap.mp hp with ⟨c, hc, hfc⟩
  have hct : c.2 = t := by
    by_cases hS : simSumFor ratings (get_top_similar_users df target 40) c.1 ≠ 0
    · rw [if_pos hS] at hfc
      rw [← Option.some.inj hfc] at hpt
      exact hpt
    · rw [if_neg hS] at hfc
      cases hfc
  have hc' := dedupFirst_subset _ _ hc
  rcases List.mem_map.mp hc' with ⟨o, ho, hoc⟩
  have ho2 := List.mem_filter.mp ho
  have ho1 := List.mem_filter.mp ho2.1
  refine ⟨o, ho1.1, by simpa using ho1.2, ?_, by simpa using ho2.2⟩
  rw [← hct, ← hoc]

/-- C4 witness: the amended theorem at the counterexample input. -/
theorem predict_keys_are_neighbor_unseen_witness :
    ∃ o : Obs, o ∈ cRatings4 ∧
      o.userId ∈ neighborIds (get_top_similar_users cDF4 1 40) ∧
      o.title = "Same" ∧ o.movieId ∉ targetMovieIds cRatings4 1 := by
  refine predict_keys_are_neighbor_unseen cRatings4 cDF4 1 "Same" ?_
  have hsu : get_top_similar_users cDF4 1 40 = [(2, 1/2), (1, 0)] := by
    norm_num [get_top_similar_users, pySlice, sortDescSnd, simRow, cDF4,
      List.insertionSort, List.orderedInsert, descBySnd]
  rw [predict_ratings, hsu]
  have hun : unseenMovies cRatings4 [(2, 1/2), (1, 0)] 1 = [(2, "Same")] := by
    norm_num [unseenMovies, neighborIds, targetMovieIds, userRows, cRatings4,
      dedupFirst, List.filter]
  rw [predictWith, hun]
  have hS : simSumFor cRatings4 [(2, 1/2), (1, 0)] 2 = 1/2 := by
    norm_num [simSumFor, lookupLast, userRows, cRatings4, List.filter]
  norm_num [List.filterMap_cons, hS]

/-- The contribution of one neighbourhood entry to the weighted sum of a
movie, as the spec writes it: similarity times the mean-centred rating
for neighbours that rated the movie, 0 for the others. -/
def itemContrib (ratings : List Obs) (m : Nat) (p : Nat × ℚ) : ℚ :=
  match lookupLast m (userRows ratings p.1) with
  | some r => p.2 * (r - userMeanD0 ratings p.1)
  | none => 0

/-- The contribution of one neighbourhood entry to the similarity sum of
a movie: the similarity for neighbours that rated the movie, 0 else. -/
def itemSimContrib (ratings : List Obs) (m : Nat) (p : Nat × ℚ) : ℚ :=
  match lookupLast m (userRows ratings p.1) with
  | some _ => p.2
  | none => 0

lemma foldl_add_eq_sum {α : Type} (f : α → ℚ) :
    ∀ (l : List α) (a : ℚ), l.foldl (fun acc x => acc + f x) a = a + (l.map f).sum
  | [], a => by simp
  | x :: l, a => by
    rw [List.foldl_cons, foldl_add_eq_sum f l (a + f x), List.map_cons, List.sum_cons]
    ring

lemma weightedSumFor_eq_sum (ratings : List Obs) (su : List (Nat × ℚ)) (m : Nat) :
    weightedSumFor ratings su m = (su.map (itemContrib ratings m)).sum := by
  unfold weightedSumFor
  have hbody : (fun (acc : ℚ) (p : Nat × ℚ) =>
      match lookupLast m (userRows ratings p.1) with
      | some r => acc + p.2 * (r - userMeanD0 ratings p.1)
      | none => acc) = fun acc p => acc + itemContrib ratings m p := by
    funext acc p
    unfold itemContrib
    cases lookupLast m (userRows ratings p.1) <;> simp
  rw [hbody, foldl_add_eq_sum, zero_add]

lemma simSumFor_eq_sum (ratings : List Obs) (su : List (Nat × ℚ)) (m : Nat) :
    simSumFor ratings su m = (su.map (itemSimContrib ratings m)).sum := by
  unfold simSumFor
  have hbody : (fun (acc : ℚ) (p : Nat × ℚ) =>
      match lookupLast m (userRows ratings p.1) with
      | some _ => acc + p.2
      | none => acc) = fun acc p => acc + itemSimContrib ratings m p := by
    funext acc p
    unfold itemSimContrib
    cases lookupLast m (userRows ratings p.1) <;> simp
  rw [hbody, foldl_add_eq_sum, zero_add]

/-- When the produced key always equals the candidate's title and the
candidate titles are distinct, the result entries with a given
candidate's title are exactly what that candidate produces. -/
lemma filterMap_filter_key (f : (Nat × String) → Option (String × Option ℚ))
    (hf : ∀ c y, f c = some y → y.1 = c.2) :
    ∀ (l : List (Nat × String)), (l.map Prod.snd).Nodup →
      ∀ c ∈ l, (l.filterMap f).filter (fun p => p.1 = c.2) = (f c).toList := by
  intro l
  induction l with
  | nil => intro _ c hc; cases hc
  | cons a t ih =>
    intro hnd c hc
    rw [List.map_cons, List.nodup_cons] at hnd
    rw [List.filterMap_cons]
    rcases List.mem_cons.mp hc with rfl | hct
    · have hrest : (t.filterMap f).filter (fun p => p.1 = c.2) = [] := by
        rw [List.filter_eq_nil_iff]
        intro p hp
        rcases List.mem_filterMap.mp hp with ⟨c', hc', hfc'⟩
        have h1 : p.1 = c'.2 := hf c' p hfc'
        have h2 : c'.2 ∈ t.map Prod.snd := List.mem_map_of_mem Prod.snd hc'
        simp only [decide_eq_true_eq]
        intro heq
        exact hnd.1 (by rw [← h1, heq] at h2; exact h2)
      cases hfa : f c with
      | none => rw [hrest]; simp
      | some y =>
        rw [List.filter_cons]
        rw [if_pos (by simpa using hf c y hfa)]
        rw [hrest]
        simp
    · have hne : a.2 ≠ c.2 := by
        intro heq
        exact hnd.1 (heq ▸ List.mem_map_of_mem Prod.snd hct)
      have hrec := ih hnd.2 c hct
      cases hfa : f a with
      | none => simpa using hrec
      | some y =>
        rw [List.filter_cons]
        rw [if_neg (by simp [hf a y hfa, hne])]
        exact hrec

/-- C1: for a target user with at least one rating and distinct candidate
titles, the PredictionSet maps each candidate item with nonzero
similarity sum to exactly targetMean + weightedSum / similaritySum, the
sums ranging over the neighbours that rated the item; an item whose
similarity sum is exactly zero is absent. -/
theorem predict_ratings_prediction_formula (ratings : List Obs) (df : SimDF)
    (target : Nat) (su : List (Nat × ℚ))
    (hsu : su = get_top_similar_users df target 40)
    (htr : userRows ratings target ≠ [])
    (hnd : ((unseenMovies ratings su target).map Prod.snd).Nodup)
    (c : Nat × String) (hc : c ∈ unseenMovies ratings su target) :
    ((su.map (itemSimContrib ratings c.1)).sum ≠ 0 →
      pyDictGet c.2 (predict_ratings ratings df target) =
        some (some (meanD0 ((userRows ratings target).map Obs.rating) +
          (su.map (itemContrib ratings c.1)).sum /
            (su.map (itemSimContrib ratings c.1)).sum))) ∧
    ((su.map (itemSimContrib ratings c.1)).sum = 0 →
      pyDictGet c.2 (predict_ratings ratings df target) = none) := by
  subst hsu
  set su := get_top_similar_users df target 40 with hsu
  have hkey : (predict_ratings ratings df target).filter (fun p => p.1 = c.2) =
      (if simSumFor ratings su c.1 ≠ 0 then
        some (c.2, (targetMean ratings target).map
          (fun tm => tm + weightedSumFor ratings su c.1 / simSumFor ratings su c.1))
      else none).toList := by
    unfold predict_ratings predictWith
    exact filterMap_filter_key _ (by
      intro c' y hy
      by_cases hS : simSumFor ratings su c'.1 ≠ 0
      · rw [if_pos hS] at hy
        rw [← Option.some.inj hy]
      · rw [if_neg hS] at hy
        cases hy) _ hnd c hc
  constructor
  · intro hS
    have hS' : simSumFor ratings su c.1 ≠ 0 := by
      rw [simSumFor_eq_sum]
      exact hS
    unfold pyDictGet
    rw [hkey, if_pos hS', targetMean_eq_some htr]
    simp only [Option.toList_some, List.map_cons, List.map_nil, Option.map_some']
    rw [List.getLast?_singleton]
    rw [weightedSumFor_eq_sum, simSumFor_eq_sum]
  · intro hS
    have hS' : ¬ simSumFor ratings su c.1 ≠ 0 := by
      rw [simSumFor_eq_sum]
      exact fun h => h hS
    unfold pyDictGet
    rw [hkey, if_neg hS']
    simp

/-- C1 witness input, the spec's worked example: the target (user 1)
rated item 1 with 5 and item 2 with 3 (mean 4.0); the single neighbour
(user 2, similarity 0.8) rated item 1 with 4 and item 3 with 5
(mean 4.5). -/
def cRatingsEx : List Obs :=
  [⟨1, 1, 5, "m1"⟩, ⟨1, 2, 3, "m2"⟩, ⟨2, 1, 4, "m1"⟩, ⟨2, 3, 5, "m3"⟩]

def cDFEx : SimDF := ⟨[1, 2], fun u v => if u = v then 0 else 4/5⟩

/-- C1 witness: for the spec's example the predicted rating of item 3 is
exactly 4.5. -/
theorem predict_ratings_prediction_formula_witness :
    pyDictGet "m3" (predict_ratings cRatingsEx cDFEx 1) = some (some (9/2)) := by
  have hsu : get_top_similar_users cDFEx 1 40 = [(2, 4/5), (1, 0)] := by
    norm_num [get_top_similar_users, pySlice, sortDescSnd, simRow, cDFEx,
      List.insertionSort, List.orderedInsert, descBySnd]
  have hun : unseenMovies cRatingsEx [(2, 4/5), (1, 0)] 1 = [(3, "m3")] := by
    norm_num [unseenMovies, neighborIds, targetMovieIds, userRows, cRatingsEx,
      dedupFirst, List.filter]
  have h := predict_ratings_prediction_formula cRatingsEx cDFEx 1 [(2, 4/5), (1, 0)]
    hsu.symm (by simp [userRows, cRatingsEx, List.filter])
    (by rw [hun]; simp) (3, "m3") (by rw [hun]; simp)
  have hS : ([(2, (4:ℚ)/5), (1, 0)].map (itemSimContrib cRatingsEx 3)).sum = 4/5 := by
    norm_num [itemSimContrib, lookupLast, userRows, cRatingsEx, List.filter]
  have hW : ([(2, (4:ℚ)/5), (1, 0)].map (itemContrib cRatingsEx 3)).sum = 2/5 := by
    norm_num [itemContrib, lookupLast, userRows, userMeanD0, meanD0, cRatingsEx,
      List.filter]
  have hM : meanD0 ((userRows cRatingsEx 1).map Obs.rating) = 4 := by
    norm_num [userRows, cRatingsEx, List.filter, meanD0]
  rw [hS] at h
  have h1 := h.1 (by norm_num)
  rw [hW, hM] at h1
  rw [h1]
  norm_num

lemma lookupLast_eq_none {ratings : List Obs} {target m : Nat}
    (h : m ∉ targetMovieIds ratings target) :
    lookupLast m (userRows ratings target) = none := by
  unfold lookupLast
  have hnil : (userRows ratings target).filter (fun o => o.movieId = m) = [] := by
    rw [List.filter_eq_nil_iff]
    intro o ho
    simp only [decide_eq_true_eq]
    intro heq
    exact h (heq ▸ List.mem_map_of_mem Obs.movieId ho)
  rw [hnil]
  rfl

lemma foldl_filter_of_skip {α β : Type} (f : β → α → β) (q : α → Bool) :
    ∀ (l : List α), (∀ x ∈ l, q x = false → ∀ acc, f acc x = acc) →
      ∀ acc, (l.filter q).foldl f acc = l.foldl f acc := by
  intro l
  induction l with
  | nil => intro _ _; rfl
  | cons a t ih =>
    intro h acc
    cases hqa : q a with
    | true =>
      simp only [List.filter_cons, hqa, if_true, List.foldl_cons]
      exact ih (fun x hx => h x (List.mem_cons_of_mem a hx)) _
    | false =>
      simp only [List.filter_cons, hqa, if_false, List.foldl_cons]
      rw [h a (List.mem_cons_self a t) hqa acc]
      exact ih (fun x hx => h x (List.mem_cons_of_mem a hx)) _

lemma weightedSumFor_filter_target (ratings : List Obs) (su : List (Nat × ℚ))
    (target m : Nat) (hm : lookupLast m (userRows ratings target) = none) :
    weightedSumFor ratings (su.filter (fun p => p.1 ≠ target)) m =
      weightedSumFor ratings su m := by
  unfold weightedSumFor
  apply foldl_filter_of_skip
  intro x _ hq acc
  have hx : x.1 = target := by simpa using hq
  rw [hx, hm]

lemma simSumFor_filter_target (ratings : List Obs) (su : List (Nat × ℚ))
    (target m : Nat) (hm : lookupLast m (userRows ratings target) = none) :
    simSumFor ratings (su.filter (fun p => p.1 ≠ target)) m =
      simSumFor ratings su m := by
  unfold simSumFor
  apply foldl_filter_of_skip
  intro x _ hq acc
  have hx : x.1 = target := by simpa using hq
  rw [hx, hm]

lemma mem_neighborIds_filter_target {su : List (Nat × ℚ)} {target u : Nat}
    (hne : u ≠ target) :
    u ∈ neighborIds (su.filter (fun p => p.1 ≠ target)) ↔ u ∈ neighborIds su := by
  unfold neighborIds
  constructor
  · intro h
    rcases List.mem_map.mp h with ⟨p, hp, hpe⟩
    exact List.mem_map.mpr ⟨p, (List.mem_filter.mp hp).1, hpe⟩
  · intro h
    rcases List.mem_map.mp h with ⟨p, hp, hpe⟩
    exact List.mem_map.mpr ⟨p, List.mem_filter.mpr ⟨hp, by simp [hpe ▸ hne]⟩, hpe⟩

lemma unseenMovies_filter_target (ratings : List Obs) (su : List (Nat × ℚ))
    (target : Nat) :
    unseenMovies ratings (su.filter (fun p => p.1 ≠ target)) target =
      unseenMovies ratings su target := by
  unfold unseenMovies
  congr 1
  congr 1
  rw [List.filter_filter, List.filter_filter]
  apply List.filter_congr
  intro o ho
  by_cases hm : o.movieId ∈ targetMovieIds ratings target
  · simp [hm]
  · have hne : o.userId ≠ target := by
      intro heq
      exact hm (List.mem_map_of_mem Obs.movieId (List.mem_filter.mpr ⟨ho, by simp [heq]⟩))
    congr 1
    exact decide_eq_decide.mpr (mem_neighborIds_filter_target hne)

lemma predictWith_filter_target (ratings : List Obs) (su : List (Nat × ℚ))
    (target : Nat) :
    predictWith ratings (su.filter (fun p => p.1 ≠ target)) target =
      predictWith ratings su target := by
  unfold predictWith
  rw [unseenMovies_filter_target]
  apply List.filterMap_congr
  intro c hc
  have hcm : c.1 ∉ targetMovieIds ratings target := by
    have hc' := dedupFirst_subset _ _ hc
    rcases List.mem_map.mp hc' with ⟨o, ho, hoc⟩
    have h2 := (List.mem_filter.mp ho).2
    rw [← hoc]
    simpa using h2
  have hnone := lookupLast_eq_none hcm
  rw [weightedSumFor_filter_target _ _ _ _ hnone, simSumFor_filter_target _ _ _ _ hnone]

/-- C10: when the target user itself appears in the selected
neighbourhood (carrying its forced self-similarity 0), the returned
PredictionSet — keys and predicted values — is identical to the one
computed with the target removed from the neighbourhood: the target never
rates a candidate item (candidates exclude its movies), so it adds
nothing to any weighted or similarity sum. -/
theorem predict_self_neighbor_harmless (ratings : List Obs) (df : SimDF) (target : Nat)
    (hmem : target ∈ neighborIds (get_top_similar_users df target 40))
    (hself : ∀ p ∈ get_top_similar_users df target 40, p.1 = target → p.2 = 0) :
    predict_ratings ratings df target =
      predictWith ratings
        ((get_top_similar_users df target 40).filter (fun p => p.1 ≠ target)) target := by
  rw [predict_ratings, predictWith_filter_target]

/-- C10 witness: two users where the neighbourhood of the target (user 1)
is the whole sorted row, including (1, 0) itself. -/
def cRatings10 : List Obs := [⟨1, 1, 5, "m1"⟩, ⟨2, 2, 3, "m2"⟩]

def cDF10 : SimDF := ⟨[1, 2], fun u v => if u = v then 0 else 1/2⟩

theorem predict_self_neighbor_harmless_witness :
    predict_ratings cRatings10 cDF10 1 =
      predictWith cRatings10
        ((get_top_similar_users cDF10 1 40).filter (fun p => p.1 ≠ 1)) 1 := by
  have hsu : get_top_similar_users cDF10 1 40 = [(2, 1/2), (1, 0)] := by
    norm_num [get_top_similar_users, pySlice, sortDescSnd, simRow, cDF10,
      List.insertionSort, List.orderedInsert, descBySnd]
  refine predict_self_neighbor_harmless cRatings10 cDF10 1 ?_ ?_
  · rw [hsu]
    simp [neighborIds]
  · rw [hsu]
    intro p hp h1
    rcases List.mem_cons.mp hp with rfl | hp2
    · exact absurd h1 (by norm_num)
    · rcases List.mem_cons.mp hp2 with rfl | hp3
      · rfl
      · cases hp3

end RecSys
